import Mathlib

/-!
Verification of the x402-gateway payment facilitator core against its
specification.

The development shallowly embeds the TypeScript sources:

* decimal-integer strings exchanged between functions (smallest-unit USDC
  amounts produced by `BigInt(...).toString()` / `parsePrice`) are modelled by
  their numeric values in `ℕ`/`ℤ`; the parse of an incoming string is
  modelled explicitly wherever the source calls `BigInt(...)`, `parseFloat`
  or `parseInt` (which can throw / produce `NaN`);
* JavaScript numbers that carry prices or fee percentages are modelled by
  exact rationals (`ℚ`) or by exact numerator/denominator pairs; on every
  concrete input appearing in the claims the double-precision computation of
  the source and the exact computation agree;
* `Math.round` is round-half-toward-positive-infinity, `BigInt` division is
  truncation toward zero (`Int.tdiv`);
* string manipulation is carried out on `List Char` (the `data` of a
  `String`) so that all definitions evaluate inside the kernel.
-/

namespace X402

/-! Section: JavaScript modelling helpers -/

/-- Decidable equality for `Except`, used to state and evaluate results of
fallible operations. -/
instance {ε α : Type} [DecidableEq ε] [DecidableEq α] : DecidableEq (Except ε α) :=
  fun a b =>
    match a, b with
    | .ok x, .ok y =>
      if h : x = y then .isTrue (by rw [h]) else .isFalse (fun hc => h (Except.ok.inj hc))
    | .error x, .error y =>
      if h : x = y then .isTrue (by rw [h]) else .isFalse (fun hc => h (Except.error.inj hc))
    | .ok _, .error _ => .isFalse (fun hc => Except.noConfusion hc)
    | .error _, .ok _ => .isFalse (fun hc => Except.noConfusion hc)

/-- Character-level lower-casing of ASCII letters, the effect of
`String.prototype.toLowerCase` on the ASCII strings handled here. -/
def jsLowerChar (c : Char) : Char :=
  if 'A' ≤ c ∧ c ≤ 'Z' then Char.ofNat (c.toNat + 32) else c

/-- Lower-case a string (on its character list). -/
def jsToLower (s : String) : String :=
  String.mk (s.data.map jsLowerChar)

/-- JavaScript truthiness of a string: the empty string is falsy. -/
def strTruthy (s : String) : Bool := s ≠ ""

/-- JavaScript truthiness of a possibly-undefined string
(`undefined`/`null` and `""` are falsy). -/
def optTruthy (o : Option String) : Bool :=
  match o with
  | some s => strTruthy s
  | none => false

/-- The JavaScript `a || b` on possibly-undefined strings: `b` when `a` is
falsy. -/
def jsOrStr (a b : Option String) : Option String :=
  if optTruthy a then a else b

/-- Decimal digit value of a character, `none` for non-digits. -/
def digitVal (c : Char) : Option ℕ :=
  if '0' ≤ c ∧ c ≤ '9' then some (c.toNat - '0'.toNat) else none

/-- Parse a non-empty all-digit character list as a natural number. -/
def parseDigits (l : List Char) : Option ℕ :=
  match l with
  | [] => none
  | _ =>
    l.foldl
      (fun acc c =>
        match acc, digitVal c with
        | some n, some d => some (n * 10 + d)
        | _, _ => none)
      (some 0)

/-- Parse of a decimal-digit string as an unsigned integer.  Models
`BigInt(s)` and `parseInt(s, 10)` on the canonical decimal strings the
system passes around (both throw / return `NaN` respectively on the inputs
this returns `none` for). -/
def parseDecNat (s : String) : Option ℕ := parseDigits s.data

/-- Fuelled decimal rendering helper. -/
def natDecAux : ℕ → ℕ → List Char → List Char
  | 0, _, acc => acc
  | f + 1, n, acc =>
    let d := Char.ofNat (n % 10 + '0'.toNat)
    if n < 10 then d :: acc else natDecAux f (n / 10) (d :: acc)

/-- Canonical decimal rendering of a natural number, the result of
`n.toString()` in JavaScript. -/
def natDecRepr (n : ℕ) : String := String.mk (natDecAux (n + 1) n [])

/-- Whitespace recognised by `String.prototype.trim`. -/
def isJsSpace (c : Char) : Bool :=
  c = ' ' ∨ c = '\t' ∨ c = '\n' ∨ c = '\r'

/-- Trim leading and trailing whitespace from a character list. -/
def trimChars (l : List Char) : List Char :=
  ((l.dropWhile isJsSpace).reverse.dropWhile isJsSpace).reverse

/-! Section: price conversion (packages/core/src/pricing.ts)

`parseFloat` on the plain decimal literals used throughout the system is
modelled exactly: the string `i.f` denotes the rational
`(i * 10^d + f) / 10^d` where `d` is the number of fraction digits.  The
source then computes `Math.round(numericPrice * 10^6)` in doubles; on every
amount handled by the claims this equals the exact
`⌊(num * 10^6 * 2 + den) / (2 * den)⌋` computed here in `ℕ`. -/

/-- Split a character list at the first `'.'`: integer digits and fraction
digits (with no second dot allowed, as in a `parseFloat`-accepted literal). -/
def splitAtDot (l : List Char) : Option (List Char × List Char) :=
  match l.span (fun c => c ≠ '.') with
  | (intPart, []) => some (intPart, [])
  | (intPart, _ :: rest) =>
    if rest.contains '.' then none else some (intPart, rest)

/-- Parse an unsigned decimal literal as an exact numerator/denominator pair
`(num, den)` with value `num / den` and `den = 10 ^ fractionDigits`.
Models `parseFloat` (up to the floating rounding, which is invisible on the
inputs used by the system) on such literals; `none` models `NaN`. -/
def parseDecLiteral (l : List Char) : Option (ℕ × ℕ) :=
  match splitAtDot l with
  | none => none
  | some (intPart, fracPart) =>
    match fracPart with
    | [] =>
      match parseDigits intPart with
      | some i => some (i, 1)
      | none => none
    | _ =>
      match parseDigits intPart, parseDigits fracPart with
      | some i, some f => some (i * 10 ^ fracPart.length + f, 10 ^ fracPart.length)
      | _, _ => none

/-- Strip one leading `$` (the source uses `price.replace(/^\$/, '')`). -/
def stripDollar (l : List Char) : List Char :=
  match l with
  | '$' :: rest => rest
  | _ => l

/-- Round-half-up of the fraction `num / den` (`den > 0`), the value of
`Math.round(num / den)` for non-negative arguments. -/
def roundHalfUp (num den : ℕ) : ℕ := (2 * num + den) / (2 * den)

/-- `parsePrice` of pricing.ts on a string price: strip a currency symbol,
trim, parse as a decimal number, reject `NaN`/negatives, multiply by `10^6`
and round.  The source returns the decimal string of the result; per the
file-level convention the numeric value is returned, `none` models the
thrown `Invalid price` error. -/
def parsePrice (price : String) : Option ℕ :=
  match parseDecLiteral (trimChars (stripDollar price.data)) with
  | none => none
  | some (num, den) => some (roundHalfUp (num * 10 ^ 6) den)

/-- Left-pad a digit string with zeros to the requested width. -/
def padZerosTo (w : ℕ) (l : List Char) : List Char :=
  List.replicate (w - l.length) '0' ++ l

/-- `formatPrice` of pricing.ts: parse the smallest-unit amount with
`parseInt`, reject `NaN`/negatives (`none` models the throw), divide by
`10^6` and format with `min decimals 6` fraction digits (the effect of
`toFixed`), optionally prefixing `$`. -/
def formatPrice (amount : String) (symbol : Bool) (decimals : ℕ) : Option String :=
  match parseDecNat amount with
  | none => none
  | some n =>
    let k := if decimals ≤ 6 then decimals else 6
    let scaled := roundHalfUp (n * 10 ^ k) (10 ^ 6)
    let body :=
      if k = 0 then (natDecRepr (scaled)).data
      else (natDecRepr (scaled / 10 ^ k)).data ++ '.' ::
        padZerosTo k (natDecRepr (scaled % 10 ^ k)).data
    some (String.mk (if symbol then '$' :: body else body))

/-! Section: fee calculation (packages/facilitator/src/fee.ts) -/

/-- Fee breakdown returned by `calculateFee`; the three amount strings are
modelled by their integer values. -/
structure FeeBreakdown where
  totalAmount : ℤ
  publisherAmount : ℤ
  feeAmount : ℤ
  feePercent : ℚ
  deriving DecidableEq

/-- Exact value of `Math.round(p * 100)`, i.e. `⌊p * 100 + 1/2⌋`, computed
on the numerator/denominator of `p` so that it evaluates in the kernel. -/
def roundTimes100 (p : ℚ) : ℤ :=
  Int.fdiv (2 * (p.num * 100) + (p.den : ℤ)) (2 * (p.den : ℤ))

/-- `calculateFee` of fee.ts: `BigInt(amount)` (whose throw on a
non-decimal string is modelled by `none`), basis points from the fee
percentage, fee by truncating division, publisher amount by subtraction. -/
def calculateFee (amount : String) (feePercent : ℚ) : Option FeeBreakdown :=
  match parseDecNat amount with
  | none => none
  | some t =>
    let total : ℤ := t
    let feeBps : ℤ := roundTimes100 feePercent
    let fee : ℤ := Int.tdiv (total * feeBps) 10000
    let publisherAmount : ℤ := total - fee
    some ⟨total, publisherAmount, fee, feePercent⟩

/-! Section: budget manager (packages/agent/src/budget.ts)

`BudgetManager` state is the pair `(totalSpent, history)`; the policy and
the amounts are carried explicitly.  `checkSpend` / `assertSpend` /
`recordSpend` are the methods of the class; a thrown non-budget error
(`parsePrice` throwing inside them) is modelled by an explicit error
constructor. -/

/-- Client-side spending policy; all three fields are optional in the
source. -/
structure SpendingPolicy where
  maxPerRequest : Option String
  maxTotal : Option String
  allowedDomains : Option (List String)
  deriving DecidableEq

/-- One payment record of the history; `amount` is the smallest-unit
decimal string, modelled by its value. -/
structure PaymentRecord where
  contentId : String
  amount : ℕ
  domain : String
  timestamp : ℤ
  deriving DecidableEq

/-- Result of `checkSpend`. -/
structure SpendCheckResult where
  allowed : Bool
  reason : Option String
  deriving DecidableEq

/-- Decimal rendering of an integer (the `toString` of a `bigint`). -/
def intDecRepr (n : ℤ) : String :=
  if n < 0 then String.mk ('-' :: (natDecRepr n.natAbs).data) else natDecRepr n.natAbs

/-- The domain gate of `checkSpend`: a truthy domain, an existing
allow-list, and a non-zero length. -/
def domainGateActive (policy : SpendingPolicy) (domain : Option String) : Bool :=
  optTruthy domain &&
    (match policy.allowedDomains with
     | some l => decide (l.length > 0)
     | none => false)

/-- Membership test `allowedDomains.includes(domain)`. -/
def domainAllowed (policy : SpendingPolicy) (domain : Option String) : Bool :=
  (policy.allowedDomains.getD []).contains (domain.getD "")

/-- The total-budget arm of `checkSpend` (shared by both per-request
branches of the source's straight-line method body). -/
def checkSpendTotal (policy : SpendingPolicy) (totalSpent : ℤ)
    (amountSmallest : ℕ) : Except String SpendCheckResult :=
  if optTruthy policy.maxTotal then
    match parsePrice (policy.maxTotal.getD "") with
    | none => .error ("Invalid price: " ++ policy.maxTotal.getD "")
    | some maxTotal =>
      if totalSpent + amountSmallest > (maxTotal : ℤ) then
        let remaining : ℤ := (maxTotal : ℤ) - totalSpent
        match formatPrice (intDecRepr remaining) false 2 with
        | none => .error ("Invalid amount: " ++ intDecRepr remaining)
        | some f => .ok ⟨false, some ("Would exceed total budget. Remaining: " ++ f ++ " USDC")⟩
      else .ok ⟨true, none⟩
  else .ok ⟨true, none⟩

/-- `checkSpend` of budget.ts.  `Except.error` models a thrown exception
(from `parsePrice` on an unparsable amount or limit), `Except.ok` the
returned `SpendCheckResult`. -/
def checkSpend (policy : SpendingPolicy) (totalSpent : ℤ) (amount : String)
    (domain : Option String) : Except String SpendCheckResult :=
  if domainGateActive policy domain && !(domainAllowed policy domain) then
    .ok ⟨false, some ("Domain \x22" ++ domain.getD "" ++ "\x22 is not in the allowed list")⟩
  else
    match parsePrice amount with
    | none => .error ("Invalid price: " ++ amount)
    | some amountSmallest =>
      if optTruthy policy.maxPerRequest then
        match parsePrice (policy.maxPerRequest.getD "") with
        | none => .error ("Invalid price: " ++ policy.maxPerRequest.getD "")
        | some maxPerRequest =>
          if amountSmallest > maxPerRequest then
            .ok ⟨false, some ("Amount " ++ amount ++ " USDC exceeds per-request limit of " ++
              policy.maxPerRequest.getD "" ++ " USDC")⟩
          else checkSpendTotal policy totalSpent amountSmallest
      else checkSpendTotal policy totalSpent amountSmallest

/-- Outcome of `assertSpend`: normal return, a thrown `X402BudgetError`
with its code, or any other thrown error. -/
inductive AssertOutcome where
  | ok : AssertOutcome
  | budgetErr (code : String) (msg : String) : AssertOutcome
  | threw (msg : String) : AssertOutcome
  deriving DecidableEq

/-- `assertSpend` of budget.ts: run `checkSpend`, and on rejection re-derive
the error code (note: the re-derivation tests `policy.allowedDomains`
without the non-empty-length guard that `checkSpend` uses). -/
def assertSpend (policy : SpendingPolicy) (totalSpent : ℤ) (amount : String)
    (domain : Option String) : AssertOutcome :=
  match checkSpend policy totalSpent amount domain with
  | .error m => .threw m
  | .ok r =>
    if r.allowed then .ok
    else
      if optTruthy domain && policy.allowedDomains.isSome && !(domainAllowed policy domain) then
        .budgetErr "DOMAIN_NOT_ALLOWED" (r.reason.getD "")
      else
        if optTruthy policy.maxPerRequest then
          match parsePrice (policy.maxPerRequest.getD ""), parsePrice amount with
          | some maxPerRequest, some amountSmallest =>
            if amountSmallest > maxPerRequest then
              .budgetErr "PER_REQUEST_LIMIT" (r.reason.getD "")
            else .budgetErr "BUDGET_EXCEEDED" (r.reason.getD "")
          | none, _ => .threw ("Invalid price: " ++ policy.maxPerRequest.getD "")
          | _, none => .threw ("Invalid price: " ++ amount)
        else .budgetErr "BUDGET_EXCEEDED" (r.reason.getD "")

/-- Outcome of `recordSpend`: the updated `(totalSpent, history)`, or a
throw from the 80%-warning block (which happens after the state was already
mutated, hence the mutated state is carried). -/
inductive RecordResult where
  | ok (totalSpent : ℤ) (history : List PaymentRecord) : RecordResult
  | threwAfter (totalSpent : ℤ) (history : List PaymentRecord) : RecordResult
  deriving DecidableEq

/-- `recordSpend` of budget.ts: accumulate the spend, append the history
record, then evaluate the 80% warning block (whose `parsePrice` of
`maxTotal` can throw after the mutation). -/
def recordSpend (policy : SpendingPolicy) (totalSpent : ℤ)
    (history : List PaymentRecord) (amountSmallest : ℕ) (contentId domain : String)
    (nowMs : ℤ) : RecordResult :=
  let ts := totalSpent + amountSmallest
  let hist := history ++ [⟨contentId, amountSmallest, domain, nowMs⟩]
  if optTruthy policy.maxTotal then
    match parsePrice (policy.maxTotal.getD "") with
    | none => .threwAfter ts hist
    | some _ => .ok ts hist
  else .ok ts hist

/-! Section: receipt cache (the agent's ReceiptCache class)

The JavaScript `Map` is modelled as a function from keys to optional
entries; `get`/`set`/`delete` and the periodic `cleanup` sweep act on it
pointwise exactly as the source does. -/

/-- A cached receipt entry: the token and its expiry in milliseconds. -/
structure CacheEntry where
  token : String
  expiresAt : ℤ
  deriving DecidableEq

/-- The `ReceiptCache` state: the map, the access counter and the default
TTL in seconds (`cleanupInterval` is the constant 100). -/
structure ReceiptCache where
  entries : String → Option CacheEntry
  accessCount : ℕ
  defaultTTL : ℤ

/-- The private `cleanup`: delete every entry with `now > expiresAt`. -/
def cacheCleanup (c : ReceiptCache) (nowMs : ℤ) : ReceiptCache :=
  { c with entries := fun k =>
      match c.entries k with
      | some e => if nowMs > e.expiresAt then none else some e
      | none => none }

/-- `ReceiptCache.get`: bump the access counter, run the periodic cleanup
every 100 accesses, then return the entry's token unless it is absent or
expired (an expired entry is deleted). Returns the result paired with the
updated cache state. -/
def cacheGet (c : ReceiptCache) (contentId : String) (nowMs : ℤ) :
    Option String × ReceiptCache :=
  let ac := c.accessCount + 1
  let c1 : ReceiptCache := { c with accessCount := ac }
  let c2 := if ac % 100 = 0 then cacheCleanup c1 nowMs else c1
  match c2.entries contentId with
  | none => (none, c2)
  | some e =>
    if nowMs > e.expiresAt then
      (none, { c2 with entries := fun k => if k = contentId then none else c2.entries k })
    else (some e.token, c2)

/-- `ReceiptCache.set`: store the token with expiry `now + ttl * 1000`
milliseconds (`ttl` in seconds, defaulting to the cache's default TTL). -/
def cacheSet (c : ReceiptCache) (contentId token : String) (ttl : Option ℤ)
    (nowMs : ℤ) : ReceiptCache :=
  let effectiveTTL := ttl.getD c.defaultTTL
  { c with entries := fun k =>
      if k = contentId then some ⟨token, nowMs + effectiveTTL * 1000⟩ else c.entries k }

/-! Section: receipts and their token transport (the core receipt module)

The `jose` JWT library is embedded symbolically: a signed token is the
claims object together with a tag recording the signing key; `jwtVerify`
succeeds exactly when the key matches and then (per the library's default
claim validation) rejects tokens whose `exp` claim is `≤ now`;
`decodeJwt` returns the claims without any check. -/

/-- An x402 receipt.  The `amount` decimal string is modelled by its
value. -/
structure X402Receipt where
  id : String
  contentId : String
  payer : String
  payee : String
  amount : ℤ
  currency : String
  txHash : String
  chainId : ℤ
  paidAt : ℤ
  expiresAt : ℤ
  facilitator : String
  deriving DecidableEq

/-- Default receipt TTL in seconds (constants.ts). -/
def DEFAULT_RECEIPT_TTL : ℤ := 86400

/-- Parameters of `buildReceipt` (receipt module). -/
structure BuildReceiptParams where
  contentId : String
  payer : String
  payee : String
  amount : ℤ
  currency : Option String
  txHash : String
  chainId : ℤ
  facilitator : Option String
  ttlSeconds : Option ℤ
  deriving DecidableEq

/-- `buildReceipt`: fill the receipt from the parameters with the current
unix time, defaulting currency, facilitator URL and TTL; the random receipt
id is an explicit argument. -/
def buildReceipt (params : BuildReceiptParams) (now : ℤ) (freshId : String) :
    X402Receipt :=
  let ttl := params.ttlSeconds.getD DEFAULT_RECEIPT_TTL
  { id := freshId
    contentId := params.contentId
    payer := params.payer
    payee := params.payee
    amount := params.amount
    currency := params.currency.getD "USDC"
    txHash := params.txHash
    chainId := params.chainId
    paidAt := now
    expiresAt := now + ttl
    facilitator := params.facilitator.getD "https://x402.org/facilitator" }

/-- The claims set of a receipt token: the receipt fields spread into the
payload plus the standard `sub`/`iat`/`exp` claims. -/
structure ReceiptClaims where
  receipt : X402Receipt
  sub : String
  iat : ℤ
  exp : ℤ
  deriving DecidableEq

/-- The signing tag of a token: HMAC-SHA256 under a shared secret, or
ECDSA P-256 under the key pair identified by its SPKI public key. -/
inductive JwtTag where
  | hs256 (secret : String) : JwtTag
  | es256 (publicKeySpki : String) : JwtTag
  deriving DecidableEq

/-- A (symbolically) signed three-segment receipt token. -/
structure JwtToken where
  claims : ReceiptClaims
  tag : JwtTag
  deriving DecidableEq

/-- `createReceiptToken`: sign the receipt claims (receipt fields plus
`sub = payer`, `iat = paidAt`, `exp = expiresAt`) with HS256 under the
secret. -/
def createReceiptToken (receipt : X402Receipt) (secret : String) : JwtToken :=
  ⟨⟨receipt, receipt.payer, receipt.paidAt, receipt.expiresAt⟩, .hs256 secret⟩

/-- The symbolic `jose.jwtVerify`: reject a key mismatch, then apply the
library's default claim validation, which fails a token whose `exp` claim
is `≤ now`; on success return the payload. -/
def joseJwtVerify (token : JwtToken) (key : JwtTag) (now : ℤ) :
    Except String ReceiptClaims :=
  if token.tag ≠ key then .error "signature verification failed"
  else if token.claims.exp ≤ now then .error "\x22exp\x22 claim timestamp check failed"
  else .ok token.claims

/-- Verification options of `verifyReceipt`. -/
structure VerifyOptions where
  jwtSecret : Option String
  facilitatorPublicKey : Option String
  expectedContentId : Option String
  deriving DecidableEq

/-- Result of `verifyReceipt`. -/
structure VerifyResult where
  valid : Bool
  receipt : Option X402Receipt
  error : Option String
  deriving DecidableEq

/-- `verifyReceipt`: pick the verification path by JS truthiness of the
options (`if (options.jwtSecret)` / `else if (options.facilitatorPublicKey)`
— an absent or empty-string key is falsy and falls through to the
unverified decode), catch a library throw as
`Receipt verification failed: …`, then re-check expiry
(`receipt.expiresAt < now` rejects) and, when a truthy expected content id
is supplied, the content id. -/
def verifyReceipt (token : JwtToken) (options : VerifyOptions) (now : ℤ) :
    VerifyResult :=
  let payloadE : Except String ReceiptClaims :=
    if optTruthy options.jwtSecret then
      joseJwtVerify token (.hs256 (options.jwtSecret.getD "")) now
    else if optTruthy options.facilitatorPublicKey then
      joseJwtVerify token (.es256 (options.facilitatorPublicKey.getD "")) now
    else .ok token.claims
  match payloadE with
  | .error e => ⟨false, none, some ("Receipt verification failed: " ++ e)⟩
  | .ok payload =>
    let receipt := payload.receipt
    if receipt.expiresAt < now then
      ⟨false, some receipt, some "Receipt has expired"⟩
    else
      match options.expectedContentId with
      | some expected =>
        if strTruthy expected && receipt.contentId ≠ expected then
          ⟨false, some receipt,
            some ("Receipt is for content \x22" ++ receipt.contentId ++ "\x22, not \x22" ++
              expected ++ "\x22")⟩
        else ⟨true, some receipt, none⟩
      | none => ⟨true, some receipt, none⟩

/-! Section: receipt extraction from HTTP headers (extractReceiptFromHeaders)

Web-API `Headers` store names case-insensitively, so `headers.get(name)`
matches ignoring case; a plain record is an object whose keys are matched
verbatim, and the source probes exactly the canonical spelling and the
all-lowercase spelling of each header. -/

/-- The two shapes of the `headers` argument. -/
inductive HeadersInput where
  | web (entries : List (String × String)) : HeadersInput
  | record (entries : List (String × String)) : HeadersInput

/-- `Headers.get`: case-insensitive lookup, `null` when absent. -/
def webHeadersGet (entries : List (String × String)) (name : String) :
    Option String :=
  (entries.find? (fun p => jsToLower p.1 = jsToLower name)).map (fun p => p.2)

/-- Plain-object property access: verbatim key lookup, `undefined` when
absent. -/
def recordGet (entries : List (String × String)) (name : String) :
    Option String :=
  (entries.find? (fun p => p.1 = name)).map (fun p => p.2)

/-- Tail of the extraction shared by both shapes: the `Authorization`
value, returned with the `X402 ` prefix stripped when present. -/
def authTail (auth : Option String) : Option String :=
  match auth with
  | some a =>
    if a.data.take 5 = "X402 ".data then some (String.mk (a.data.drop 5)) else none
  | none => none

/-- `extractReceiptFromHeaders`: probe `X-402-Receipt`, then `X-PAYMENT`,
then `Authorization` with the `X402 ` scheme; on a plain record each
header is probed under its canonical and its all-lowercase spelling. -/
def extractReceiptFromHeaders (headers : HeadersInput) : Option String :=
  match headers with
  | .web entries =>
    let receipt := webHeadersGet entries "X-402-Receipt"
    if optTruthy receipt then receipt
    else
      let xPayment := webHeadersGet entries "X-PAYMENT"
      if optTruthy xPayment then xPayment
      else authTail (webHeadersGet entries "Authorization")
  | .record entries =>
    let receipt := jsOrStr (recordGet entries "X-402-Receipt") (recordGet entries "x-402-receipt")
    if optTruthy receipt then receipt
    else
      let xPayment := jsOrStr (recordGet entries "X-PAYMENT") (recordGet entries "x-payment")
      if optTruthy xPayment then xPayment
      else authTail (jsOrStr (recordGet entries "Authorization") (recordGet entries "authorization"))

/-! Section: facilitator pipeline (packages/facilitator/src)

`handlePayment` is embedded over typed payloads: the missing-field checks
of `validatePayload` hold by construction, while those of its checks that
constrain the values of present fields are embedded; secp256k1 recovery of
the EIP-712 signer is an oracle argument (the recovered address or a
thrown error), as is the pluggable transfer executor's outcome and the
current time. -/

/-- An EIP-3009 transfer authorization (fields `from` and `to` of the
source are `fromAddr`/`toAddr` here since `from` is reserved). -/
structure TransferAuthorization where
  fromAddr : String
  toAddr : String
  value : String
  validAfter : ℤ
  validBefore : ℤ
  nonce : String
  deriving DecidableEq

/-- A typed facilitator request payload. -/
structure FacilitatorRequest where
  x402Version : ℤ
  scheme : String
  network : String
  resource : String
  signature : String
  authorization : TransferAuthorization
  deriving DecidableEq

/-- A validation verdict carrying the human-readable failure reason. -/
structure ValidationResult where
  valid : Bool
  error : Option String
  deriving DecidableEq

/-- Leading `0x` test used by the shape validation. -/
def hexPrefixed (s : String) : Bool := s.data.take 2 = ['0', 'x']

/-- `validatePayload` of handler.ts restricted to typed payloads: version,
scheme, and the `0x` prefixes of the signature and of the address/nonce
fields (presence and string typing hold by construction here). -/
def validatePayload (r : FacilitatorRequest) : ValidationResult :=
  if r.x402Version ≠ 1 then
    ⟨false, some ("Unsupported x402Version: " ++ intDecRepr r.x402Version ++ ". Expected 1")⟩
  else if r.scheme ≠ "exact" then
    ⟨false, some ("Unsupported scheme: " ++ r.scheme ++ ". Expected \x22exact\x22")⟩
  else if ¬ hexPrefixed r.signature then
    ⟨false, some "Missing or invalid payload.signature"⟩
  else if ¬ hexPrefixed r.authorization.fromAddr then
    ⟨false, some "Invalid authorization.from address"⟩
  else if ¬ hexPrefixed r.authorization.toAddr then
    ⟨false, some "Invalid authorization.to address"⟩
  else if ¬ hexPrefixed r.authorization.nonce then
    ⟨false, some "Invalid authorization.nonce"⟩
  else ⟨true, none⟩

/-- Registry of numeric chain ids (constants.ts `NUMERIC_CHAIN_IDS`). -/
def NUMERIC_CHAIN_IDS : List (String × ℤ) :=
  [("base-mainnet", 8453), ("base-sepolia", 84532)]

/-- A resolved network: registry key and numeric chain id. -/
structure NetworkInfo where
  x402Network : String
  chainId : ℤ
  deriving DecidableEq

/-- `resolveNetwork` of signature.ts: find the registry entry whose
`eip155:<id>` CAIP-2 string equals the request's network. -/
def resolveNetwork (network : String) : Option NetworkInfo :=
  (NUMERIC_CHAIN_IDS.find? (fun p => network = "eip155:" ++ intDecRepr p.2)).map
    (fun p => ⟨p.1, p.2⟩)

/-- Outcome of the secp256k1 `recoverTypedDataAddress` call: the recovered
address, or a thrown error. -/
inductive RecoverOutcome where
  | ok (addr : String) : RecoverOutcome
  | err (msg : String) : RecoverOutcome
  deriving DecidableEq

/-- `recoverSigner` of signature.ts: `BigInt(authorization.value)` throws
on a non-decimal value string (inside the caller's try block); otherwise
the elliptic-curve recovery oracle decides the result. -/
def recoverSigner (auth : TransferAuthorization) (oracle : RecoverOutcome) :
    RecoverOutcome :=
  match parseDecNat auth.value with
  | none => .err ("Cannot convert " ++ auth.value ++ " to a BigInt")
  | some _ => oracle

/-- Result of `verifySignature`. -/
structure SigResult where
  valid : Bool
  recoveredAddress : String
  error : Option String
  deriving DecidableEq

/-- `verifySignature` of signature.ts: recover the signer, compare
lower-cased with `authorization.from`, catching a recovery throw. -/
def verifySignature (auth : TransferAuthorization) (oracle : RecoverOutcome) :
    SigResult :=
  match recoverSigner auth oracle with
  | .err m =>
    ⟨false, "0x0000000000000000000000000000000000000000",
      some ("Signature recovery failed: " ++ m)⟩
  | .ok recovered =>
    if jsToLower auth.fromAddr ≠ jsToLower recovered then
      ⟨false, recovered,
        some ("Signature mismatch: expected " ++ auth.fromAddr ++ ", recovered " ++ recovered)⟩
    else ⟨true, recovered, none⟩

/-- `validateTimeWindow` of signature.ts. -/
def validateTimeWindow (auth : TransferAuthorization) (now : ℤ) :
    ValidationResult :=
  if auth.validBefore ≤ now then
    ⟨false, some ("Authorization expired: validBefore " ++ intDecRepr auth.validBefore ++
      " <= now " ++ intDecRepr now)⟩
  else if auth.validAfter > now then
    ⟨false, some ("Authorization not yet valid: validAfter " ++ intDecRepr auth.validAfter ++
      " > now " ++ intDecRepr now)⟩
  else ⟨true, none⟩

/-- Facilitator configuration fields used by the handler. -/
structure FacilitatorConfig where
  jwtSecret : String
  feePercent : ℚ
  facilitatorUrl : String
  deriving DecidableEq

/-- Outcome of the pluggable transfer executor: success with a transaction
hash, a reported failure, or a thrown error. -/
inductive TransferOutcome where
  | success (txHash : String) : TransferOutcome
  | failure : TransferOutcome
  | thrown (msg : String) : TransferOutcome
  deriving DecidableEq

/-- Body of a handler response: an error object or the receipt token plus
transaction hash. -/
inductive HandlerBody where
  | errorBody (msg : String) : HandlerBody
  | successBody (receipt : JwtToken) (txHash : String) : HandlerBody
  deriving DecidableEq

/-- A handler response. -/
structure HandlerResult where
  status : ℤ
  body : HandlerBody
  deriving DecidableEq

/-- `handlePayment` of handler.ts: validate, resolve the network, verify
the signature, check the time window, split the fee, run the executor and
mint the signed receipt.  `none` models the one uncaught exception of the
function body (`BigInt` inside `calculateFee` on a value string that the
earlier steps did not parse — unreachable whenever signature verification
passed). -/
def handlePayment (request : FacilitatorRequest) (config : FacilitatorConfig)
    (oracle : RecoverOutcome) (transfer : TransferOutcome) (now : ℤ)
    (freshId : String) : Option HandlerResult :=
  let validation := validatePayload request
  if ¬ validation.valid then
    some ⟨400, .errorBody (validation.error.getD "")⟩
  else
    match resolveNetwork request.network with
    | none => some ⟨400, .errorBody ("Unsupported network: " ++ request.network)⟩
    | some networkInfo =>
      let sigResult := verifySignature request.authorization oracle
      if ¬ sigResult.valid then
        some ⟨400, .errorBody (sigResult.error.getD "")⟩
      else
        let timeResult := validateTimeWindow request.authorization now
        if ¬ timeResult.valid then
          some ⟨400, .errorBody (timeResult.error.getD "")⟩
        else
          match calculateFee request.authorization.value config.feePercent with
          | none => none
          | some fees =>
            match transfer with
            | .failure => some ⟨500, .errorBody "Transfer execution failed"⟩
            | .thrown m => some ⟨500, .errorBody ("Transfer failed: " ++ m)⟩
            | .success txHash =>
              let receipt := buildReceipt
                { contentId := request.resource
                  payer := request.authorization.fromAddr
                  payee := request.authorization.toAddr
                  amount := fees.publisherAmount
                  currency := some "USDC"
                  txHash := txHash
                  chainId := networkInfo.chainId
                  facilitator := some config.facilitatorUrl
                  ttlSeconds := none } now freshId
              let receiptToken := createReceiptToken receipt config.jwtSecret
              some ⟨200, .successBody receiptToken txHash⟩

/-! Section: agent client payment flow (packages/agent/src/client.ts)

`executePayment` is embedded as a transition on the client's mutable state
(receipt cache plus budget counters).  The wallet signature and the
facilitator submission (with its retry loop) are oracle outcomes; event
emission does not touch this state (listener errors are swallowed by
`emit`). -/

/-- The client state touched by `executePayment`. -/
structure AgentState where
  cache : ReceiptCache
  totalSpent : ℤ
  history : List PaymentRecord

/-- A typed payment error (`X402PaymentError` / `X402BudgetError` /
`X402NetworkError`), by code and message. -/
structure PayError where
  code : String
  msg : String
  deriving DecidableEq

/-- The facilitator's successful response to a submission. -/
structure FacResponse where
  receipt : String
  txHash : Option String
  deriving DecidableEq

/-- The payment-request fields used by `executePayment`; `domain` is
`new URL(facilitatorUrl).hostname`, modelled as an input. -/
structure PaymentRequestInfo where
  contentId : String
  price : String
  domain : String
  deriving DecidableEq

/-- `executePayment` of client.ts: assert the budget, sign (oracle), submit
to the facilitator with retry (oracle), then cache the receipt and record
the spend.  Returns the state after the call together with the result or
the rethrown error. -/
def executePayment (st : AgentState) (policy : SpendingPolicy)
    (pr : PaymentRequestInfo) (signOutcome : Except String Unit)
    (submitOutcome : Except PayError FacResponse) (nowMs : ℤ) :
    AgentState × Except PayError FacResponse :=
  match assertSpend policy st.totalSpent pr.price (some pr.domain) with
  | .budgetErr code m => (st, .error ⟨code, m⟩)
  | .threw m => (st, .error ⟨"UNCAUGHT", m⟩)
  | .ok =>
    match signOutcome with
    | .error m => (st, .error ⟨"SIGNING_FAILED", m⟩)
    | .ok _ =>
      match submitOutcome with
      | .error e => (st, .error e)
      | .ok resp =>
        let st1 : AgentState :=
          { st with cache := cacheSet st.cache pr.contentId resp.receipt none nowMs }
        match parsePrice pr.price with
        | none => (st1, .error ⟨"UNCAUGHT", "Invalid price: " ++ pr.price⟩)
        | some amountSmallest =>
          match recordSpend policy st1.totalSpent st1.history amountSmallest
              pr.contentId pr.domain nowMs with
          | .ok ts hist => ({ st1 with totalSpent := ts, history := hist }, .ok resp)
          | .threwAfter ts hist =>
            ({ st1 with totalSpent := ts, history := hist },
              .error ⟨"UNCAUGHT", "Invalid price: " ++ policy.maxTotal.getD ""⟩)

/-! Concrete fixtures used to instantiate witnesses. -/

/-- A concrete receipt for witness instantiations. -/
def sampleReceipt : X402Receipt :=
  ⟨"rcpt_1", "a", "0xA", "0xB", 98000, "USDC", "0xTx", 8453, 100, 1000,
    "https://x402.org/facilitator"⟩

/-- The specification's happy-path facilitator request. -/
def sampleRequest : FacilitatorRequest :=
  ⟨1, "exact", "eip155:8453", "article-1", "0xSig",
    ⟨"0xA", "0xB", "100000", 0, 9999999999, "0xab"⟩⟩

/-- A facilitator configuration with the default 2 percent fee. -/
def sampleConfig : FacilitatorConfig := ⟨"secret", 2, "http://localhost:4020"⟩

/-- An empty agent state for witness instantiations. -/
def emptyAgentState : AgentState := ⟨⟨fun _ => none, 0, 86400⟩, 0, []⟩

/-! ## Theorems

Helper lemmas first, then one theorem per specification claim (with a
witness instantiation whenever the claim theorem carries hypotheses). -/

theorem roundTimes100_eq_floor (p : ℚ) :
    roundTimes100 p = ⌊p * 100 + 1 / 2⌋ := by
  have hdpos : 0 < p.den := p.pos
  have hd : ((p.den : ℚ)) ≠ 0 := by exact_mod_cast hdpos.ne.symm
  have hmul : (p.num : ℚ) = p * (p.den : ℚ) := by
    calc (p.num : ℚ) = (p.num : ℚ) / (p.den : ℚ) * (p.den : ℚ) := by field_simp
    _ = p * (p.den : ℚ) := by rw [Rat.num_div_den]
  have hval : p * 100 + 1 / 2 =
      ((2 * (p.num * 100) + (p.den : ℤ) : ℤ) : ℚ) / ((2 * p.den : ℕ) : ℚ) := by
    rw [eq_div_iff (by exact_mod_cast (by omega : (2 * p.den : ℕ) ≠ 0))]
    push_cast
    linear_combination (-200 : ℚ) * hmul
  have hc : ((2 * p.den : ℕ) : ℤ) = 2 * (p.den : ℤ) := by push_cast; ring
  rw [hval, Rat.floor_intCast_div_natCast, hc]
  exact Int.fdiv_eq_ediv _ (by omega)

theorem roundTimes100_nonneg {p : ℚ} (hp : 0 ≤ p) : 0 ≤ roundTimes100 p := by
  rw [roundTimes100_eq_floor]
  have h : (0 : ℚ) ≤ p * 100 + 1 / 2 := by positivity
  exact Int.le_floor.mpr (by exact_mod_cast h)

theorem roundTimes100_le {p : ℚ} (hp : p ≤ 50) : roundTimes100 p ≤ 5000 := by
  rw [roundTimes100_eq_floor]
  have h : ⌊p * 100 + 1 / 2⌋ < 5001 := by
    apply Int.floor_lt.mpr
    push_cast
    nlinarith
  omega

theorem tdiv_natCast (m n : ℕ) :
    Int.tdiv (m : ℤ) (n : ℤ) = ((m / n : ℕ) : ℤ) := rfl

/-- C1: for every amount string denoting an unsigned 256-bit value and
every fee percentage in `[0, 50]`, `calculateFee` returns a breakdown with
`feeAmount = value * round(feePercent * 100) / 10000` (truncating
division), `publisherAmount = value - feeAmount`, the two summing back to
the value, and `0 ≤ feeAmount ≤ value`. -/
theorem calculateFee_conserves (amount : String) (feePercent : ℚ) (v : ℕ)
    (hparse : parseDecNat amount = some v) (hfit : v < 2 ^ 256)
    (h0 : 0 ≤ feePercent) (h50 : feePercent ≤ 50) :
    ∃ fb : FeeBreakdown, calculateFee amount feePercent = some fb ∧
      fb.feeAmount = Int.tdiv ((v : ℤ) * roundTimes100 feePercent) 10000 ∧
      fb.publisherAmount = (v : ℤ) - fb.feeAmount ∧
      fb.feeAmount + fb.publisherAmount = (v : ℤ) ∧
      0 ≤ fb.feeAmount ∧ fb.feeAmount ≤ (v : ℤ) := by
  have hb0 : 0 ≤ roundTimes100 feePercent := roundTimes100_nonneg h0
  have hb5 : roundTimes100 feePercent ≤ 5000 := roundTimes100_le h50
  refine ⟨⟨v, (v : ℤ) - Int.tdiv ((v : ℤ) * roundTimes100 feePercent) 10000,
    Int.tdiv ((v : ℤ) * roundTimes100 feePercent) 10000, feePercent⟩,
    ?_, rfl, rfl, by ring, ?_, ?_⟩
  · unfold calculateFee
    rw [hparse]
  · exact Int.tdiv_nonneg (by positivity) (by norm_num)
  · show Int.tdiv ((v : ℤ) * roundTimes100 feePercent) 10000 ≤ (v : ℤ)
    obtain ⟨b, hb⟩ : ∃ b : ℕ, roundTimes100 feePercent = (b : ℤ) :=
      ⟨(roundTimes100 feePercent).toNat, (Int.toNat_of_nonneg hb0).symm⟩
    rw [hb]
    rw [show ((v : ℤ) * (b : ℤ)) = ((v * b : ℕ) : ℤ) by push_cast; ring]
    rw [show (10000 : ℤ) = ((10000 : ℕ) : ℤ) by norm_num]
    rw [tdiv_natCast]
    have hble : b ≤ 10000 := by
      have : (b : ℤ) ≤ 5000 := hb ▸ hb5
      omega
    have : v * b / 10000 ≤ v * 10000 / 10000 :=
      Nat.div_le_div_right (Nat.mul_le_mul_left v hble)
    have hcancel : v * 10000 / 10000 = v := Nat.mul_div_cancel v (by norm_num)
    exact_mod_cast le_trans this (le_of_eq hcancel)

/-- Witness for C1 at the specification's own example: a 100000-unit
payment at 2 percent splits into fee 2000 and publisher amount 98000. -/
theorem calculateFee_conserves_witness :
    ∃ fb : FeeBreakdown, calculateFee "100000" 2 = some fb ∧
      fb.feeAmount = Int.tdiv ((100000 : ℤ) * roundTimes100 2) 10000 ∧
      fb.publisherAmount = (100000 : ℤ) - fb.feeAmount ∧
      fb.feeAmount + fb.publisherAmount = (100000 : ℤ) ∧
      0 ≤ fb.feeAmount ∧ fb.feeAmount ≤ (100000 : ℤ) :=
  calculateFee_conserves "100000" 2 100000 (by decide) (by decide)
    (by norm_num) (by norm_num)

/-- C7: the five specification prices round-trip through
`parsePrice` / `formatPrice` with six decimals and no symbol to their
canonical six-decimal renderings. -/
theorem price_roundtrip_six_decimals :
    ((parsePrice "0").bind fun n => formatPrice (natDecRepr n) false 6) =
      some "0.000000" ∧
    ((parsePrice "0.001").bind fun n => formatPrice (natDecRepr n) false 6) =
      some "0.001000" ∧
    ((parsePrice "0.01").bind fun n => formatPrice (natDecRepr n) false 6) =
      some "0.010000" ∧
    ((parsePrice "1.00").bind fun n => formatPrice (natDecRepr n) false 6) =
      some "1.000000" ∧
    ((parsePrice "1000.00").bind fun n => formatPrice (natDecRepr n) false 6) =
      some "1000.000000" := by
  refine ⟨by decide, by decide, by decide, by decide, by decide⟩

/-- C6: after `set(id, tok, TTL)` a `get(id)` returns the token at every
time up to `set-time + TTL` (seconds, stored in milliseconds), returns
`null` with the entry deleted strictly afterwards, and a `get` on an
absent or expired entry always returns `null`. -/
theorem receiptCache_set_then_get (c : ReceiptCache) (id tok : String)
    (ttl setMs t : ℤ) :
    (t ≤ setMs + ttl * 1000 →
      (cacheGet (cacheSet c id tok (some ttl) setMs) id t).1 = some tok) ∧
    (setMs + ttl * 1000 < t →
      (cacheGet (cacheSet c id tok (some ttl) setMs) id t).1 = none ∧
      (cacheGet (cacheSet c id tok (some ttl) setMs) id t).2.entries id = none) ∧
    (∀ c0 : ReceiptCache,
      (c0.entries id = none ∨ ∃ e, c0.entries id = some e ∧ e.expiresAt < t) →
      (cacheGet c0 id t).1 = none) := by
  refine ⟨?_, ?_, ?_⟩
  · intro hle
    have hnot : ¬ (t > setMs + ttl * 1000) := by omega
    by_cases hc : (c.accessCount + 1) % 100 = 0 <;>
      simp [cacheGet, cacheSet, cacheCleanup, hc, hnot]
  · intro hgt
    by_cases hc : (c.accessCount + 1) % 100 = 0 <;>
      constructor <;> simp [cacheGet, cacheSet, cacheCleanup, hc, hgt]
  · intro c0 h
    rcases h with h | ⟨e, he, hlt⟩
    · by_cases hc : (c0.accessCount + 1) % 100 = 0 <;>
        simp [cacheGet, cacheCleanup, hc, h]
    · by_cases hc : (c0.accessCount + 1) % 100 = 0 <;>
        simp [cacheGet, cacheCleanup, hc, he, hlt]

/-- Witness for C6: a concrete set/get round trip at, just after, and far
past the expiry deadline, plus a get on an absent id. -/
theorem receiptCache_set_then_get_witness :
    ((cacheGet (cacheSet ⟨fun _ => none, 0, 86400⟩ "a" "tok" (some 60) 1000) "a"
        61000).1 = some "tok") ∧
    ((cacheGet (cacheSet ⟨fun _ => none, 0, 86400⟩ "a" "tok" (some 60) 1000) "a"
        61001).1 = none) ∧
    ((cacheGet (⟨fun _ => none, 0, 86400⟩ : ReceiptCache) "b" 5).1 = none) := by
  have h := receiptCache_set_then_get ⟨fun _ => none, 0, 86400⟩ "a" "tok" 60 1000 61000
  have h2 := receiptCache_set_then_get ⟨fun _ => none, 0, 86400⟩ "a" "tok" 60 1000 61001
  have h3 := receiptCache_set_then_get ⟨fun _ => none, 0, 86400⟩ "b" "tok" 60 1000 5
  exact ⟨h.1 (by norm_num), (h2.2.1 (by norm_num)).1,
    h3.2.2 ⟨fun _ => none, 0, 86400⟩ (Or.inl rfl)⟩

/-- C4 counterexample: the empty string is a secret other than `"k"`, yet
verifying the `"k"`-signed token with `jwtSecret = ""` returns
`valid: true` on an unexpired token — `""` is falsy, so `verifyReceipt`
falls into the unverified decode-only path and never checks the
signature, refuting "with any secret other than s … returns
valid:false". -/
theorem receipt_roundtrip_empty_secret_counterexample :
    ("" : String) ≠ "k" ∧
    verifyReceipt (createReceiptToken sampleReceipt "k") ⟨some "", none, none⟩
      500 = ⟨true, some sampleReceipt, none⟩ := by
  exact ⟨by decide, by decide⟩

/-- C4 (amended): a receipt signed with secret `s` verifies with `s` to
`{valid: true, receipt: r}` strictly before `expiresAt`; with any
non-empty secret other than `s`, or strictly after `expiresAt`,
verification reports `valid: false` — but a verification whose
`jwtSecret` is the empty string is falsy and drops into the unverified
decode-only path, which accepts any unexpired token. -/
theorem receipt_roundtrip (r : X402Receipt) (s : String) :
    (∀ now, now < r.expiresAt →
      verifyReceipt (createReceiptToken r s) ⟨some s, none, none⟩ now =
        ⟨true, some r, none⟩) ∧
    (∀ s2 now, s2 ≠ s → s2 ≠ "" →
      (verifyReceipt (createReceiptToken r s) ⟨some s2, none, none⟩ now).valid =
        false) ∧
    (∀ now, r.expiresAt < now →
      (verifyReceipt (createReceiptToken r s) ⟨some s, none, none⟩ now).valid =
        false) ∧
    (∀ s2 now, now < r.expiresAt →
      verifyReceipt (createReceiptToken r s) ⟨some s2, none, none⟩ now =
        ⟨true, some r, none⟩ →
      (s2 = s ∨ s2 = "")) := by
  refine ⟨?_, ?_, ?_, ?_⟩
  · intro now hnow
    have h1 : ¬ (r.expiresAt ≤ now) := by omega
    have h2 : ¬ (r.expiresAt < now) := by omega
    by_cases hs : s = ""
    · subst hs
      simp [verifyReceipt, joseJwtVerify, createReceiptToken, optTruthy,
        strTruthy, h1, h2]
    · simp [verifyReceipt, joseJwtVerify, createReceiptToken, optTruthy,
        strTruthy, hs, h1, h2]
  · intro s2 now hne hne2
    have h' : s ≠ s2 := fun e => hne e.symm
    simp [verifyReceipt, joseJwtVerify, createReceiptToken, optTruthy,
      strTruthy, hne2, h']
  · intro now hnow
    have h1 : r.expiresAt ≤ now := by omega
    by_cases hs : s = ""
    · subst hs
      simp [verifyReceipt, joseJwtVerify, createReceiptToken, optTruthy,
        strTruthy, h1, hnow]
    · simp [verifyReceipt, joseJwtVerify, createReceiptToken, optTruthy,
      strTruthy, hs, h1]
  · intro s2 now hnow hval
    by_cases hs2 : s2 = ""
    · exact Or.inr hs2
    · left
      by_cases heq : s = s2
      · exact heq.symm
      · exfalso
        have h' : verifyReceipt (createReceiptToken r s) ⟨some s2, none, none⟩
            now = ⟨false, none,
              some "Receipt verification failed: signature verification failed"⟩ := by
          simp [verifyReceipt, joseJwtVerify, createReceiptToken, optTruthy,
            strTruthy, hs2, heq]
        rw [h'] at hval
        simp at hval

/-- Witness for C4 (amended): the sample receipt verifies with its secret
before expiry, fails with a wrong non-empty secret and after expiry, and a
successful foreign verification forces the empty-string loophole. -/
theorem receipt_roundtrip_witness :
    (verifyReceipt (createReceiptToken sampleReceipt "k") ⟨some "k", none, none⟩
      500 = ⟨true, some sampleReceipt, none⟩) ∧
    ((verifyReceipt (createReceiptToken sampleReceipt "k") ⟨some "bad", none, none⟩
      500).valid = false) ∧
    ((verifyReceipt (createReceiptToken sampleReceipt "k") ⟨some "k", none, none⟩
      1001).valid = false) ∧
    (("" : String) = "k" ∨ ("" : String) = "") := by
  have h := receipt_roundtrip sampleReceipt "k"
  exact ⟨h.1 500 (by decide), h.2.1 "bad" 500 (by decide) (by decide),
    h.2.2.1 1001 (by decide), h.2.2.2 "" 500 (by decide) (by decide)⟩

/-- C5 counterexample: in the decode-only verification path, a receipt
whose `expiresAt` equals the current time is accepted (`valid: true`), so
the verifier does not enforce `exp > now` in every path — its own check
only rejects `expiresAt < now`. -/
theorem verifyReceipt_decode_boundary_counterexample :
    sampleReceipt.expiresAt = 1000 ∧
    (verifyReceipt (createReceiptToken sampleReceipt "k") ⟨none, none, none⟩
      1000).valid = true := by
  exact ⟨by decide, by decide⟩

/-- C5 (amended): the paths selected by a truthy (non-empty) `jwtSecret`
or `facilitatorPublicKey` accept only when the signature matches and the
library's claim validation passed (`exp > now`); when both keys are falsy
(absent or the empty string) the decode-only path runs with no signature
check at all and, like every path's own post-check, enforces only
`expiresAt ≥ now` (not the claimed strict `exp > now`); in every path a
truthy expected content id is enforced against `contentId`, and a receipt
minted for content id `a` checked against `b` yields `valid: false` with
an error message naming `a`. -/
theorem verifyReceipt_expiry_and_content_paths (tok : JwtToken) (now : ℤ) :
    (∀ s ec, s ≠ "" →
      (verifyReceipt tok ⟨some s, none, ec⟩ now).valid = true →
      tok.tag = .hs256 s ∧ now < tok.claims.exp ∧
      now ≤ tok.claims.receipt.expiresAt ∧
      (∀ e, ec = some e → e ≠ "" → tok.claims.receipt.contentId = e)) ∧
    (∀ k ec, k ≠ "" →
      (verifyReceipt tok ⟨none, some k, ec⟩ now).valid = true →
      tok.tag = .es256 k ∧ now < tok.claims.exp ∧
      now ≤ tok.claims.receipt.expiresAt ∧
      (∀ e, ec = some e → e ≠ "" → tok.claims.receipt.contentId = e)) ∧
    (∀ js pk ec, optTruthy js = false → optTruthy pk = false →
      (verifyReceipt tok ⟨js, pk, ec⟩ now).valid = true →
      now ≤ tok.claims.receipt.expiresAt ∧
      (∀ e, ec = some e → e ≠ "" → tok.claims.receipt.contentId = e)) ∧
    (∀ r s, r.contentId = "a" → now < r.expiresAt →
      verifyReceipt (createReceiptToken r s) ⟨some s, none, some "b"⟩ now =
        ⟨false, some r, some "Receipt is for content \x22a\x22, not \x22b\x22"⟩) := by
  refine ⟨?_, ?_, ?_, ?_⟩
  · intro s ec hs hv
    by_cases h1 : tok.tag = JwtTag.hs256 s
    · by_cases h2 : tok.claims.exp ≤ now
      · simp [verifyReceipt, joseJwtVerify, optTruthy, strTruthy, hs, h1, h2] at hv
      · by_cases h3 : tok.claims.receipt.expiresAt < now
        · simp [verifyReceipt, joseJwtVerify, optTruthy, strTruthy, hs, h1, h2,
            h3] at hv
        · refine ⟨h1, by omega, by omega, ?_⟩
          intro e hec hne
          subst hec
          by_cases h4 : tok.claims.receipt.contentId = e
          · exact h4
          · have h5 : strTruthy e = true := by simp [strTruthy, hne]
            simp [verifyReceipt, joseJwtVerify, optTruthy, strTruthy, hs, h1,
              h2, h3, h4, h5, hne] at hv
    · simp [verifyReceipt, joseJwtVerify, optTruthy, strTruthy, hs, h1] at hv
  · intro k ec hk hv
    by_cases h1 : tok.tag = JwtTag.es256 k
    · by_cases h2 : tok.claims.exp ≤ now
      · simp [verifyReceipt, joseJwtVerify, optTruthy, strTruthy, hk, h1, h2] at hv
      · by_cases h3 : tok.claims.receipt.expiresAt < now
        · simp [verifyReceipt, joseJwtVerify, optTruthy, strTruthy, hk, h1, h2,
            h3] at hv
        · refine ⟨h1, by omega, by omega, ?_⟩
          intro e hec hne
          subst hec
          by_cases h4 : tok.claims.receipt.contentId = e
          · exact h4
          · have h5 : strTruthy e = true := by simp [strTruthy, hne]
            simp [verifyReceipt, joseJwtVerify, optTruthy, strTruthy, hk, h1,
              h2, h3, h4, h5, hne] at hv
    · simp [verifyReceipt, joseJwtVerify, optTruthy, strTruthy, hk, h1] at hv
  · intro js pk ec hjs hpk hv
    by_cases h3 : tok.claims.receipt.expiresAt < now
    · simp [verifyReceipt, joseJwtVerify, hjs, hpk, h3] at hv
    · refine ⟨by omega, ?_⟩
      intro e hec hne
      subst hec
      by_cases h4 : tok.claims.receipt.contentId = e
      · exact h4
      · have h5 : strTruthy e = true := by simp [strTruthy, hne]
        simp [verifyReceipt, joseJwtVerify, hjs, hpk, h3, h4, h5, hne] at hv
  · intro r s hcid hnow
    have h1 : ¬ (r.expiresAt ≤ now) := by omega
    have h2 : ¬ (r.expiresAt < now) := by omega
    by_cases hs : s = ""
    · subst hs
      simp [verifyReceipt, joseJwtVerify, createReceiptToken, optTruthy, h1, h2,
        hcid, strTruthy]
    · simp [verifyReceipt, joseJwtVerify, createReceiptToken, optTruthy, hs, h1,
        h2, hcid, strTruthy]

/-- Witness for C5 (amended): the non-empty-secret path accepted the
sample token at time 500, whence its conclusions; the falsy-keys decode
path accepted it too, whence the weaker ones; and the concrete
`a`-vs-`b` mismatch. -/
theorem verifyReceipt_expiry_paths_witness :
    ((createReceiptToken sampleReceipt "k").tag = JwtTag.hs256 "k" ∧
      (500 : ℤ) < (createReceiptToken sampleReceipt "k").claims.exp ∧
      (500 : ℤ) ≤ (createReceiptToken sampleReceipt "k").claims.receipt.expiresAt ∧
      (∀ e, (none : Option String) = some e → e ≠ "" →
        (createReceiptToken sampleReceipt "k").claims.receipt.contentId = e)) ∧
    ((500 : ℤ) ≤ (createReceiptToken sampleReceipt "k").claims.receipt.expiresAt ∧
      (∀ e, (none : Option String) = some e → e ≠ "" →
        (createReceiptToken sampleReceipt "k").claims.receipt.contentId = e)) ∧
    verifyReceipt (createReceiptToken sampleReceipt "k") ⟨some "k", none, some "b"⟩
        500 =
      ⟨false, some sampleReceipt,
        some "Receipt is for content \x22a\x22, not \x22b\x22"⟩ := by
  have h := verifyReceipt_expiry_and_content_paths
    (createReceiptToken sampleReceipt "k") 500
  exact ⟨h.1 "k" none (by decide) (by decide),
    h.2.2.1 (some "") none none (by decide) (by decide) (by decide),
    h.2.2.2 sampleReceipt "k" (by decide) (by decide)⟩

theorem validateTimeWindow_valid_iff (auth : TransferAuthorization) (now : ℤ) :
    (validateTimeWindow auth now).valid = true ↔
      (now < auth.validBefore ∧ auth.validAfter ≤ now) := by
  unfold validateTimeWindow
  split_ifs <;> simp_all

theorem verifySignature_valid_parse (auth : TransferAuthorization)
    (oracle : RecoverOutcome)
    (hsig : (verifySignature auth oracle).valid = true) :
    ∃ v, parseDecNat auth.value = some v := by
  unfold verifySignature recoverSigner at hsig
  cases hparse : parseDecNat auth.value with
  | none => rw [hparse] at hsig; simp at hsig
  | some v => exact ⟨v, rfl⟩

/-- C3: once the facilitator pipeline has passed shape validation, network
resolution and signature verification, the response is 400 exactly when
`validBefore ≤ now` or `validAfter > now`; otherwise the time-window check
passes and the pipeline continues to the transfer and receipt steps. -/
theorem handlePayment_time_window_gate (request : FacilitatorRequest)
    (config : FacilitatorConfig) (oracle : RecoverOutcome)
    (transfer : TransferOutcome) (now : ℤ) (freshId : String)
    (hval : (validatePayload request).valid = true)
    (hnet : (resolveNetwork request.network).isSome = true)
    (hsig : (verifySignature request.authorization oracle).valid = true) :
    ∃ res, handlePayment request config oracle transfer now freshId = some res ∧
      (res.status = 400 ↔
        (request.authorization.validBefore ≤ now ∨
          request.authorization.validAfter > now)) := by
  obtain ⟨info, hinfo⟩ := Option.isSome_iff_exists.mp hnet
  obtain ⟨v, hv⟩ := verifySignature_valid_parse _ _ hsig
  by_cases hw : request.authorization.validBefore ≤ now ∨
      request.authorization.validAfter > now
  · have htw : (validateTimeWindow request.authorization now).valid = false := by
      have h : ¬ ((validateTimeWindow request.authorization now).valid = true) := by
        rw [validateTimeWindow_valid_iff]
        omega
      simpa using h
    have hres : handlePayment request config oracle transfer now freshId =
        some ⟨400,
          .errorBody ((validateTimeWindow request.authorization now).error.getD "")⟩ := by
      simp [handlePayment, hval, hinfo, hsig, htw]
    exact ⟨_, hres, ⟨fun _ => hw, fun _ => rfl⟩⟩
  · have htw : (validateTimeWindow request.authorization now).valid = true :=
      (validateTimeWindow_valid_iff _ _).mpr (by omega)
    have hfee : ∃ fb, calculateFee request.authorization.value config.feePercent =
        some fb := by
      unfold calculateFee
      rw [hv]
      exact ⟨_, rfl⟩
    obtain ⟨fb, hfb⟩ := hfee
    cases transfer with
    | success txHash =>
      have hres : handlePayment request config oracle (.success txHash) now freshId =
          some ⟨200, .successBody (createReceiptToken (buildReceipt
            { contentId := request.resource
              payer := request.authorization.fromAddr
              payee := request.authorization.toAddr
              amount := fb.publisherAmount
              currency := some "USDC"
              txHash := txHash
              chainId := info.chainId
              facilitator := some config.facilitatorUrl
              ttlSeconds := none } now freshId) config.jwtSecret) txHash⟩ := by
        simp [handlePayment, hval, hinfo, hsig, htw, hfb]
      exact ⟨_, hres, ⟨fun h => by simp at h, fun h => absurd h hw⟩⟩
    | failure =>
      have hres : handlePayment request config oracle .failure now freshId =
          some ⟨500, .errorBody "Transfer execution failed"⟩ := by
        simp [handlePayment, hval, hinfo, hsig, htw, hfb]
      exact ⟨_, hres, ⟨fun h => by simp at h, fun h => absurd h hw⟩⟩
    | thrown m =>
      have hres : handlePayment request config oracle (.thrown m) now freshId =
          some ⟨500, .errorBody ("Transfer failed: " ++ m)⟩ := by
        simp [handlePayment, hval, hinfo, hsig, htw, hfb]
      exact ⟨_, hres, ⟨fun h => by simp at h, fun h => absurd h hw⟩⟩

/-- Witness for C3 at the specification's happy-path request and a time
inside the window. -/
theorem handlePayment_time_window_gate_witness :
    ∃ res, handlePayment sampleRequest sampleConfig (.ok "0xA") (.success "0xTx")
        5 "rcpt_1" = some res ∧
      (res.status = 400 ↔
        (sampleRequest.authorization.validBefore ≤ 5 ∨
          sampleRequest.authorization.validAfter > 5)) :=
  handlePayment_time_window_gate sampleRequest sampleConfig (.ok "0xA")
    (.success "0xTx") 5 "rcpt_1" (by decide) (by decide) (by decide)

/-- C2: when shape validation, network resolution, signature verification
and the time window all pass and the executor succeeds, the handler
returns 200 with a receipt whose payer/payee come from the authorization,
whose content id is the request's resource, whose amount is the value
minus the fee, whose chain id is the resolved network's, with
`paidAt = now` and `expiresAt = now + 86400` (the default TTL). -/
theorem handlePayment_happy_path (request : FacilitatorRequest)
    (config : FacilitatorConfig) (oracle : RecoverOutcome) (txHash : String)
    (now : ℤ) (freshId : String) (info : NetworkInfo)
    (hval : (validatePayload request).valid = true)
    (hnet : resolveNetwork request.network = some info)
    (hsig : (verifySignature request.authorization oracle).valid = true)
    (htime : (validateTimeWindow request.authorization now).valid = true) :
    ∃ v tok,
      parseDecNat request.authorization.value = some v ∧
      handlePayment request config oracle (.success txHash) now freshId =
        some ⟨200, .successBody tok txHash⟩ ∧
      tok.claims.receipt.payer = request.authorization.fromAddr ∧
      tok.claims.receipt.payee = request.authorization.toAddr ∧
      tok.claims.receipt.contentId = request.resource ∧
      tok.claims.receipt.amount =
        (v : ℤ) - Int.tdiv ((v : ℤ) * roundTimes100 config.feePercent) 10000 ∧
      tok.claims.receipt.chainId = info.chainId ∧
      tok.claims.receipt.paidAt = now ∧
      tok.claims.receipt.expiresAt = now + 86400 := by
  obtain ⟨v, hv⟩ := verifySignature_valid_parse _ _ hsig
  have hfb : calculateFee request.authorization.value config.feePercent =
      some ⟨(v : ℤ),
        (v : ℤ) - Int.tdiv ((v : ℤ) * roundTimes100 config.feePercent) 10000,
        Int.tdiv ((v : ℤ) * roundTimes100 config.feePercent) 10000,
        config.feePercent⟩ := by
    unfold calculateFee
    rw [hv]
  refine ⟨v, createReceiptToken (buildReceipt
    ⟨request.resource, request.authorization.fromAddr,
      request.authorization.toAddr,
      (v : ℤ) - Int.tdiv ((v : ℤ) * roundTimes100 config.feePercent) 10000,
      some "USDC", txHash, info.chainId, some config.facilitatorUrl, none⟩
    now freshId) config.jwtSecret, hv, ?_, rfl, rfl, rfl, rfl, rfl, rfl, rfl⟩
  simp [handlePayment, hval, hnet, hsig, htime, hfb]

/-- Witness for C2 at the specification's seed test: value `100000` with a
2 percent fee yields a receipt amount of 98000 for `article-1` on chain
8453. -/
theorem handlePayment_happy_path_witness :
    (∃ v tok,
      parseDecNat sampleRequest.authorization.value = some v ∧
      handlePayment sampleRequest sampleConfig (.ok "0xA") (.success "0xTx")
        5 "rcpt_1" = some ⟨200, .successBody tok "0xTx"⟩ ∧
      tok.claims.receipt.payer = sampleRequest.authorization.fromAddr ∧
      tok.claims.receipt.payee = sampleRequest.authorization.toAddr ∧
      tok.claims.receipt.contentId = sampleRequest.resource ∧
      tok.claims.receipt.amount =
        (v : ℤ) - Int.tdiv ((v : ℤ) * roundTimes100 sampleConfig.feePercent) 10000 ∧
      tok.claims.receipt.chainId = (8453 : ℤ) ∧
      tok.claims.receipt.paidAt = (5 : ℤ) ∧
      tok.claims.receipt.expiresAt = (5 : ℤ) + 86400) ∧
    (100000 : ℤ) - Int.tdiv ((100000 : ℤ) * roundTimes100 2) 10000 = 98000 := by
  refine ⟨?_, by decide⟩
  have h := handlePayment_happy_path sampleRequest sampleConfig (.ok "0xA")
    "0xTx" 5 "rcpt_1" ⟨"base-mainnet", 8453⟩ (by decide) (by decide) (by decide)
    (by decide)
  exact h

/-- C8 counterexample: with an empty allow-list and a supplied domain,
`checkSpend` rejects for the per-request limit (its reason says so), yet
`assertSpend` throws `DOMAIN_NOT_ALLOWED` instead of the claimed
`PER_REQUEST_LIMIT`, because its re-derivation omits the non-empty-length
guard of `checkSpend`'s domain gate. -/
theorem assertSpend_empty_allowlist_counterexample :
    checkSpend ⟨some "1.00", none, some []⟩ 0 "5.00" (some "x.com") =
      .ok ⟨false, some "Amount 5.00 USDC exceeds per-request limit of 1.00 USDC"⟩ ∧
    assertSpend ⟨some "1.00", none, some []⟩ 0 "5.00" (some "x.com") =
      .budgetErr "DOMAIN_NOT_ALLOWED"
        "Amount 5.00 USDC exceeds per-request limit of 1.00 USDC" := by
  exact ⟨by decide, by decide⟩

theorem checkSpend_ok_parses (policy : SpendingPolicy) (totalSpent : ℤ)
    (amount : String) (domain : Option String) (r : SpendCheckResult)
    (hchk : checkSpend policy totalSpent amount domain = .ok r)
    (hnotdom : ¬ ((optTruthy domain && policy.allowedDomains.isSome &&
      !(domainAllowed policy domain)) = true)) :
    ∃ amt, parsePrice amount = some amt ∧
      (optTruthy policy.maxPerRequest = true →
        ∃ mx, parsePrice (policy.maxPerRequest.getD "") = some mx) := by
  have hgate : ¬ ((domainGateActive policy domain &&
      !(domainAllowed policy domain)) = true) := by
    intro h
    apply hnotdom
    simp only [Bool.and_eq_true, domainGateActive] at h ⊢
    obtain ⟨⟨h1, h2⟩, h3⟩ := h
    refine ⟨⟨h1, ?_⟩, h3⟩
    cases hl : policy.allowedDomains with
    | none => rw [hl] at h2; simp at h2
    | some l => simp
  unfold checkSpend at hchk
  rw [if_neg hgate] at hchk
  cases hamt : parsePrice amount with
  | none => rw [hamt] at hchk; simp at hchk
  | some amt =>
    simp only [hamt] at hchk
    refine ⟨amt, rfl, ?_⟩
    intro htr
    rw [if_pos htr] at hchk
    cases hmx : parsePrice (policy.maxPerRequest.getD "") with
    | none => simp only [hmx] at hchk; simp at hchk
    | some mx => exact ⟨mx, rfl⟩

/-- C8 (amended): when `checkSpend` rejects, `assertSpend` throws a typed
budget error and never a plain error; its code is `DOMAIN_NOT_ALLOWED`
exactly when a truthy domain is supplied, `allowedDomains` exists (even
empty!) and the domain is not a member — which covers every domain-gate
rejection but also fires on an empty allow-list when the rejection was the
per-request or total check; otherwise `PER_REQUEST_LIMIT` when the
per-request limit is set and exceeded, else `BUDGET_EXCEEDED`; when
`checkSpend` allows, `assertSpend` returns normally. -/
theorem assertSpend_error_code_mapping (policy : SpendingPolicy)
    (totalSpent : ℤ) (amount : String) (domain : Option String)
    (r : SpendCheckResult)
    (hchk : checkSpend policy totalSpent amount domain = .ok r) :
    (r.allowed = true → assertSpend policy totalSpent amount domain = .ok) ∧
    (r.allowed = false →
      (∀ m, assertSpend policy totalSpent amount domain ≠ .threw m) ∧
      ((optTruthy domain && policy.allowedDomains.isSome &&
          !(domainAllowed policy domain)) = true →
        assertSpend policy totalSpent amount domain =
          .budgetErr "DOMAIN_NOT_ALLOWED" (r.reason.getD "")) ∧
      (¬ ((optTruthy domain && policy.allowedDomains.isSome &&
          !(domainAllowed policy domain)) = true) →
        (optTruthy policy.maxPerRequest = true →
          ∀ mx amt, parsePrice (policy.maxPerRequest.getD "") = some mx →
            parsePrice amount = some amt →
            assertSpend policy totalSpent amount domain =
              .budgetErr (if amt > mx then "PER_REQUEST_LIMIT" else "BUDGET_EXCEEDED")
                (r.reason.getD "")) ∧
        (optTruthy policy.maxPerRequest = false →
          assertSpend policy totalSpent amount domain =
            .budgetErr "BUDGET_EXCEEDED" (r.reason.getD "")))) := by
  constructor
  · intro ha
    simp [assertSpend, hchk, ha]
  · intro ha
    refine ⟨?_, ?_, ?_⟩
    · intro m
      by_cases hdom : (optTruthy domain && policy.allowedDomains.isSome &&
          !(domainAllowed policy domain)) = true
      · simp [assertSpend, hchk, ha, hdom]
      · obtain ⟨amt, hamt, hmx'⟩ :=
          checkSpend_ok_parses policy totalSpent amount domain r hchk hdom
        by_cases htr : optTruthy policy.maxPerRequest = true
        · obtain ⟨mx, hmx⟩ := hmx' htr
          simp only [assertSpend, hchk, ha, hdom, htr, hmx, hamt]
          simp
          split_ifs <;> simp
        · simp [assertSpend, hchk, ha, hdom, htr]
    · intro hdom
      simp [assertSpend, hchk, ha, hdom]
    · intro hdom
      constructor
      · intro htr mx amt hmx hamt
        simp only [assertSpend, hchk]
        simp only [ha, hdom, htr, hmx, hamt]
        by_cases hgt : amt > mx <;> simp [hgt]
      · intro htr
        simp [assertSpend, hchk, ha, hdom, htr]

/-- Witness for C8 (amended): a per-request rejection with no allow-list
maps to `PER_REQUEST_LIMIT`, and an allowed spend passes. -/
theorem assertSpend_error_code_mapping_witness :
    assertSpend ⟨some "1.00", none, none⟩ 0 "5.00" (some "x.com") =
      .budgetErr "PER_REQUEST_LIMIT"
        "Amount 5.00 USDC exceeds per-request limit of 1.00 USDC" ∧
    assertSpend ⟨some "1.00", none, none⟩ 0 "0.50" (some "x.com") = .ok := by
  have h1 := assertSpend_error_code_mapping ⟨some "1.00", none, none⟩ 0 "5.00"
    (some "x.com")
    ⟨false, some "Amount 5.00 USDC exceeds per-request limit of 1.00 USDC"⟩
    (by decide)
  have h2 := assertSpend_error_code_mapping ⟨some "1.00", none, none⟩ 0 "0.50"
    (some "x.com") ⟨true, none⟩ (by decide)
  constructor
  · have h3 := ((h1.2 rfl).2.2 (by decide)).1 (by decide) 1000000 5000000
      (by decide) (by decide)
    simpa using h3
  · exact h2.1 rfl

/-- C9 counterexample: on a plain header record the lookup is not
case-insensitive — the single entry `X-402-RECEIPT` is missed (result
`null`), although the same entry in a Web-API `Headers` object is found. -/
theorem extractReceipt_record_casing_counterexample :
    extractReceiptFromHeaders (.record [("X-402-RECEIPT", "tok")]) = none ∧
    extractReceiptFromHeaders (.web [("X-402-RECEIPT", "tok")]) = some "tok" := by
  exact ⟨by decide, by decide⟩

/-- C9 (amended): extraction probes `X-402-Receipt`, then `X-PAYMENT`,
then `Authorization` with the `X402 ` prefix stripped, returning the first
truthy hit and `null` otherwise; on a Web-API `Headers` object the name
lookup is case-insensitive, while on a plain record only the canonical
spelling and the all-lowercase spelling are probed (any other casing is
missed). -/
theorem extractReceipt_order_and_casing :
    (∀ l v, webHeadersGet l "X-402-Receipt" = some v → v ≠ "" →
      extractReceiptFromHeaders (.web l) = some v) ∧
    (∀ name v, jsToLower name = "x-402-receipt" → v ≠ "" →
      extractReceiptFromHeaders (.web [(name, v)]) = some v) ∧
    (∀ rest v, v ≠ "" →
      extractReceiptFromHeaders (.record (("X-402-Receipt", v) :: rest)) = some v) ∧
    (∀ v, v ≠ "" →
      extractReceiptFromHeaders (.record [("x-402-receipt", v)]) = some v) ∧
    (∀ v, extractReceiptFromHeaders (.record [("X-402-RECEIPT", v)]) = none) ∧
    (∀ v w, v ≠ "" →
      extractReceiptFromHeaders (.record [("X-PAYMENT", w), ("x-402-receipt", v)]) =
        some v) ∧
    (∀ t, extractReceiptFromHeaders (.record [("Authorization", "X402 " ++ t)]) =
      some t) ∧
    (extractReceiptFromHeaders (.record []) = none ∧
      extractReceiptFromHeaders (.web []) = none) := by
  refine ⟨?_, ?_, ?_, ?_, ?_, ?_, ?_, by decide, by decide⟩
  · intro l v h hv
    simp [extractReceiptFromHeaders, h, optTruthy, strTruthy, hv]
  · intro name v h hv
    have hmatch : jsToLower name = jsToLower "X-402-Receipt" := by
      rw [h]
      decide
    simp [extractReceiptFromHeaders, webHeadersGet, List.find?, hmatch, optTruthy,
      strTruthy, hv]
  · intro rest v hv
    simp [extractReceiptFromHeaders, recordGet, List.find?, jsOrStr, optTruthy,
      strTruthy, hv]
  · intro v hv
    simp [extractReceiptFromHeaders, recordGet, List.find?, jsOrStr, optTruthy,
      strTruthy, hv]
  · intro v
    rfl
  · intro v w hv
    simp [extractReceiptFromHeaders, recordGet, List.find?, jsOrStr, optTruthy,
      strTruthy, hv]
  · intro t
    have htake : ("X402 " ++ t).data.take 5 = "X402 ".data := by
      rw [String.data_append]
      exact List.take_left "X402 ".data t.data
    have hdrop : ("X402 " ++ t).data.drop 5 = t.data := by
      rw [String.data_append]
      exact List.drop_left "X402 ".data t.data
    have hne : ("X402 " ++ t) ≠ "" := by
      intro hc
      have hd := congrArg String.data hc
      rw [String.data_append] at hd
      simp at hd
    simp [extractReceiptFromHeaders, recordGet, List.find?, jsOrStr, optTruthy,
      authTail, htake, hdrop, strTruthy, hne]

/-- Witness for C9 (amended): a case-insensitive Web-API hit, priority of
the receipt header over `X-PAYMENT`, and the `Authorization` prefix
stripping, at concrete values. -/
theorem extractReceipt_order_and_casing_witness :
    extractReceiptFromHeaders (.web [("X-402-RECEIPT", "tok")]) = some "tok" ∧
    extractReceiptFromHeaders (.record [("X-402-Receipt", "tok"), ("X-PAYMENT", "p")]) =
      some "tok" ∧
    extractReceiptFromHeaders (.record [("Authorization", "X402 " ++ "abc")]) =
      some "abc" := by
  have h := extractReceipt_order_and_casing
  exact ⟨h.2.1 "X-402-RECEIPT" "tok" (by decide) (by decide),
    h.2.2.1 [("X-PAYMENT", "p")] "tok" (by decide),
    h.2.2.2.2.2.2.1 "abc"⟩

theorem assertSpend_ok_parses (policy : SpendingPolicy) (totalSpent : ℤ)
    (amount : String) (domain : Option String)
    (hok : assertSpend policy totalSpent amount domain = .ok) :
    ∃ amt, parsePrice amount = some amt ∧
      (optTruthy policy.maxTotal = true →
        ∃ mt, parsePrice (policy.maxTotal.getD "") = some mt) := by
  unfold assertSpend at hok
  cases hchk : checkSpend policy totalSpent amount domain with
  | error m => rw [hchk] at hok; simp at hok
  | ok r =>
    rw [hchk] at hok
    by_cases ha : r.allowed = true
    · unfold checkSpend at hchk
      by_cases hgate : (domainGateActive policy domain &&
          !(domainAllowed policy domain)) = true
      · rw [if_pos hgate] at hchk
        have h := Except.ok.inj hchk
        rw [← h] at ha
        simp at ha
      · rw [if_neg hgate] at hchk
        cases hamt : parsePrice amount with
        | none => rw [hamt] at hchk; simp at hchk
        | some amt =>
          simp only [hamt] at hchk
          refine ⟨amt, rfl, ?_⟩
          intro htt
          have htotal : ∃ amt2, checkSpendTotal policy totalSpent amt2 = .ok r := by
            by_cases htr : optTruthy policy.maxPerRequest = true
            · rw [if_pos htr] at hchk
              cases hmx : parsePrice (policy.maxPerRequest.getD "") with
              | none => rw [hmx] at hchk; simp at hchk
              | some mx =>
                simp only [hmx] at hchk
                by_cases hgt : amt > mx
                · rw [if_pos hgt] at hchk
                  have h := Except.ok.inj hchk
                  rw [← h] at ha
                  simp at ha
                · rw [if_neg hgt] at hchk
                  exact ⟨amt, hchk⟩
            · rw [if_neg htr] at hchk
              exact ⟨amt, hchk⟩
          obtain ⟨amt2, hct⟩ := htotal
          unfold checkSpendTotal at hct
          rw [if_pos htt] at hct
          cases hmt : parsePrice (policy.maxTotal.getD "") with
          | none => rw [hmt] at hct; simp at hct
          | some mt => exact ⟨mt, rfl⟩
    · simp only [Bool.not_eq_true] at ha
      simp [ha] at hok
      split at hok
      · simp_all
      · by_cases htr : optTruthy policy.maxPerRequest = true
        · rw [if_pos htr] at hok
          cases hmx : parsePrice (policy.maxPerRequest.getD "") with
          | none => simp [hmx] at hok
          | some mx =>
            cases hamt : parsePrice amount with
            | none => simp [hmx, hamt] at hok
            | some amt =>
              simp [hmx, hamt] at hok
              split at hok <;> simp_all
        · rw [if_neg htr] at hok
          simp at hok

/-- C10: payment failure is atomic on the agent client's state — whenever
`executePayment` ends in an error (budget rejection, signing failure, or
facilitator submission failure after retries), the receipt cache, the
budget total and the payment history are exactly as before the call; on
success, exactly one cache entry, one spend accumulation and one history
record are created. -/
theorem executePayment_atomicity (st : AgentState) (policy : SpendingPolicy)
    (pr : PaymentRequestInfo) (signOutcome : Except String Unit)
    (submitOutcome : Except PayError FacResponse) (nowMs : ℤ) :
    (∀ e, (executePayment st policy pr signOutcome submitOutcome nowMs).2 =
        .error e →
      (executePayment st policy pr signOutcome submitOutcome nowMs).1 = st) ∧
    (∀ resp, (executePayment st policy pr signOutcome submitOutcome nowMs).2 =
        .ok resp →
      ∃ amt, parsePrice pr.price = some amt ∧
        (executePayment st policy pr signOutcome submitOutcome nowMs).1.cache.entries
            pr.contentId = some ⟨resp.receipt, nowMs + st.cache.defaultTTL * 1000⟩ ∧
        (executePayment st policy pr signOutcome submitOutcome nowMs).1.totalSpent =
          st.totalSpent + amt ∧
        (executePayment st policy pr signOutcome submitOutcome nowMs).1.history =
          st.history ++ [⟨pr.contentId, amt, pr.domain, nowMs⟩]) := by
  cases hassert : assertSpend policy st.totalSpent pr.price (some pr.domain) with
  | budgetErr c m =>
    constructor
    · intro e he
      simp [executePayment, hassert]
    · intro resp hr
      simp [executePayment, hassert] at hr
  | threw m =>
    constructor
    · intro e he
      simp [executePayment, hassert]
    · intro resp hr
      simp [executePayment, hassert] at hr
  | ok =>
    obtain ⟨amt, hamt, hmt⟩ :=
      assertSpend_ok_parses policy st.totalSpent pr.price (some pr.domain) hassert
    cases signOutcome with
    | error m =>
      constructor
      · intro e he
        simp [executePayment, hassert]
      · intro resp hr
        simp [executePayment, hassert] at hr
    | ok u =>
      cases submitOutcome with
      | error e0 =>
        constructor
        · intro e he
          simp [executePayment, hassert]
        · intro resp hr
          simp [executePayment, hassert] at hr
      | ok resp =>
        have hres : executePayment st policy pr (.ok u) (.ok resp) nowMs =
            ({ cache := cacheSet st.cache pr.contentId resp.receipt none nowMs,
               totalSpent := st.totalSpent + (amt : ℤ),
               history := st.history ++ [⟨pr.contentId, amt, pr.domain, nowMs⟩] },
             .ok resp) := by
          by_cases htt : optTruthy policy.maxTotal = true
          · obtain ⟨mt, hmtv⟩ := hmt htt
            simp [executePayment, hassert, hamt, recordSpend, htt, hmtv, cacheSet]
          · simp [executePayment, hassert, hamt, recordSpend, htt, cacheSet]
        constructor
        · intro e he
          rw [hres] at he
          simp at he
        · intro resp2 hr
          rw [hres] at hr
          have hr2 : resp = resp2 := Except.ok.inj hr
          subst hr2
          refine ⟨amt, hamt, ?_, ?_, ?_⟩ <;> rw [hres] <;> simp [cacheSet]

/-- Witness for C10: a per-request budget rejection leaves the empty agent
state untouched, and a successful 0.50 USDC payment creates exactly the
cache entry, the spend accumulation and the history record. -/
theorem executePayment_atomicity_witness :
    ((executePayment emptyAgentState ⟨some "1.00", none, none⟩
        ⟨"h/p", "5.00", "x.com"⟩ (.ok ()) (.ok ⟨"tok", none⟩) 111).1 =
      emptyAgentState) ∧
    (∃ amt, parsePrice "0.50" = some amt ∧
      (executePayment emptyAgentState ⟨none, none, none⟩ ⟨"h/p", "0.50", "x.com"⟩
          (.ok ()) (.ok ⟨"tok", none⟩) 111).1.cache.entries "h/p" =
        some ⟨"tok", 111 + emptyAgentState.cache.defaultTTL * 1000⟩ ∧
      (executePayment emptyAgentState ⟨none, none, none⟩ ⟨"h/p", "0.50", "x.com"⟩
          (.ok ()) (.ok ⟨"tok", none⟩) 111).1.totalSpent =
        emptyAgentState.totalSpent + amt ∧
      (executePayment emptyAgentState ⟨none, none, none⟩ ⟨"h/p", "0.50", "x.com"⟩
          (.ok ()) (.ok ⟨"tok", none⟩) 111).1.history =
        emptyAgentState.history ++ [⟨"h/p", amt, "x.com", 111⟩]) := by
  have h1 := executePayment_atomicity emptyAgentState ⟨some "1.00", none, none⟩
    ⟨"h/p", "5.00", "x.com"⟩ (.ok ()) (.ok ⟨"tok", none⟩) 111
  have h2 := executePayment_atomicity emptyAgentState ⟨none, none, none⟩
    ⟨"h/p", "0.50", "x.com"⟩ (.ok ()) (.ok ⟨"tok", none⟩) 111
  exact ⟨h1.1 ⟨"PER_REQUEST_LIMIT",
      "Amount 5.00 USDC exceeds per-request limit of 1.00 USDC"⟩ (by decide),
    h2.2 ⟨"tok", none⟩ (by decide)⟩

end X402
